import Mathlib

/-!
Verification of `earth_lore_stream.py` (earth-lore repository).

This file gives a shallow embedding, in Lean 4, of the parts of the
streaming pipeline that the specification's testable properties talk
about: the encoder frame-delivery loops (`send_frame`, `send_crossfade`),
the era→music resolver (`pick_music_for_era` and its normalization
helpers), the per-era duration selection and the special-row floor,
the corner-overlay rotation and block scheduling, the audio feeder's
decoder-switch step, and the resume-cursor logic of `main`.

Python floats are modelled as rationals (the constants involved are
exactly representable), machine processes as explicit option-valued
handles, and the restart/retry write loops as recursions over a finite
schedule of write outcomes (`true` = the write succeeded, `false` = the
write raised a broken-pipe error, causing a restart of the encoder).
-/

namespace EarthLore

/-! ## Configuration constants (CONFIG section of the source) -/

def FPS : ℕ := 30

def SLIDE_DURATION : ℚ := 4

def CROSSFADE_DURATION : ℚ := 1 / 2

def SPECIAL_MIN_DURATION : ℚ := 5

def CORNER_OVERLAY_EVERY_N_SLIDES : ℕ := 50

def CORNER_OVERLAY_SHOW_M_SLIDES : ℕ := 4

def DEFAULT_MUSIC : String := "/root/earth_lore_video/assets/background_loop.mp3"

/-! ## Python numeric primitives

`int(q)` on a float truncates toward zero; `round(q)` rounds half to
even (banker's rounding). Both are modelled exactly on `ℚ`. -/

/-- Python `int(q)`: truncation toward zero. -/
def pyTrunc (q : ℚ) : ℤ :=
  if 0 ≤ q then ⌊q⌋ else ⌈q⌉

/-- Python `round(q)` (one-argument form): round half to even. -/
def pyRound (q : ℚ) : ℤ :=
  let f := ⌊q⌋
  let r := q - (f : ℚ)
  if r < 1 / 2 then f
  else if (1 : ℚ) / 2 < r then f + 1
  else if f % 2 = 0 then f else f + 1

/-! ## Encoder process handle

`ffmpeg_proc` is a `subprocess.Popen` or `None`; its `stdin` attribute
may itself be absent. `send_frame` / `send_crossfade` return at once when
either is missing. -/

structure FfmpegProc where
  stdin : Option Unit

/-- Truthiness test `ffmpeg_proc and ffmpeg_proc.stdin` from the guard
`if not ffmpeg_proc or not ffmpeg_proc.stdin: return`. -/
def procReady (p : Option FfmpegProc) : Bool :=
  match p with
  | none => false
  | some pr => match pr.stdin with
    | none => false
    | some _ => true

/-! ## `send_frame` (STREAM I/O section)

The loop body is
```
while sent < total:
    try: ffmpeg_proc.stdin.write(frame); sent += 1
    except (BrokenPipeError, OSError): restart_ffmpeg(); continue
```
We record, for each successful write, the tick number `sent` it carried,
driving the loop by a finite list of write outcomes. -/

/-- Tick numbers successfully delivered by the `send_frame` retry loop,
starting from tick `sent`, over a schedule of write outcomes. -/
def sendFrameTicksAux (total : ℕ) : List Bool → ℕ → List ℕ
  | [], _ => []
  | ok :: rest, sent =>
    if sent < total then
      if ok then sent :: sendFrameTicksAux total rest (sent + 1)
      else sendFrameTicksAux total rest sent
    else []

/-- Number of encoder restarts performed by the `send_frame` loop
(one per failed write attempted while `sent < total`). -/
def sendFrameRestartsAux (total : ℕ) : List Bool → ℕ → ℕ
  | [], _ => 0
  | ok :: rest, sent =>
    if sent < total then
      if ok then sendFrameRestartsAux total rest (sent + 1)
      else sendFrameRestartsAux total rest sent + 1
    else 0

/-- `send_frame(img, duration)`: guard on the process handle, then
`total = int(round(FPS * duration))` copies of the frame are pushed via
the retry loop. Returns the list of delivered tick numbers. -/
def sendFrameTotal (duration : ℚ) : ℕ :=
  (pyRound ((FPS : ℚ) * duration)).toNat

def sendFrameTicks (p : Option FfmpegProc) (duration : ℚ) (outcomes : List Bool) : List ℕ :=
  if procReady p then
    sendFrameTicksAux (sendFrameTotal duration) outcomes 0
  else []

/-- Restart count of a `send_frame` call (zero when the guard fires). -/
def sendFrameRestarts (p : Option FfmpegProc) (duration : ℚ) (outcomes : List Bool) : ℕ :=
  if procReady p then
    sendFrameRestartsAux (sendFrameTotal duration) outcomes 0
  else 0

/-! ## `send_crossfade`

`steps = max(1, int(FPS * duration))`; step `i` writes a blend with
`alpha = i / float(steps)`; same retry loop, indexed by `i`. -/

/-- The number of blend steps computed by `send_crossfade`:
`max(1, int(FPS * duration))` — note `int`, i.e. truncation. -/
def crossfadeSteps (duration : ℚ) : ℕ :=
  max 1 (pyTrunc ((FPS : ℚ) * duration)).toNat

/-- Modelled from the spec: the spec's step-count formula
`steps = max(1, round(frameRate × durationSeconds))`, for comparison
with `crossfadeSteps` taken from the source. -/
def specCrossfadeSteps (duration : ℚ) : ℕ :=
  max 1 (pyRound ((FPS : ℚ) * duration)).toNat

/-- Blend weight of step `i` out of `steps`: `i / float(steps)`. -/
def crossfadeAlpha (steps i : ℕ) : ℚ := (i : ℚ) / (steps : ℚ)

/-- Step indices successfully delivered by `send_crossfade`'s retry loop
(the same control shape as `sendFrameTicksAux`). -/
def sendCrossfadeStepsDelivered (p : Option FfmpegProc) (duration : ℚ)
    (outcomes : List Bool) : List ℕ :=
  if procReady p then
    sendFrameTicksAux (crossfadeSteps duration) outcomes 0
  else []

/-- Restart count of a `send_crossfade` call. -/
def sendCrossfadeRestarts (p : Option FfmpegProc) (duration : ℚ)
    (outcomes : List Bool) : ℕ :=
  if procReady p then
    sendFrameRestartsAux (crossfadeSteps duration) outcomes 0
  else 0

/-! ## String primitives used by the resolver and duration lookup

Python's `str.strip` is modelled by `String.trim`, `str.casefold` by
ASCII lowercasing, `re.sub(r"[^\w]+", "", s)` by filtering word
characters, `s.split(" (", 1)[0]` by cutting at the first `" ("`, and
`os.path.splitext(v)[0]` by `splitextRoot`. -/

/-- Whitespace characters recognized by Python `str.strip()`. -/
def isPySpace (c : Char) : Bool :=
  c = ' ' || c = '\t' || c = '\n' || c = '\x0b' || c = '\x0c' || c = '\r'

/-- Python `s.strip()` on a character list. -/
def pyStripList (cs : List Char) : List Char :=
  ((cs.dropWhile isPySpace).reverse.dropWhile isPySpace).reverse

/-- Python `s.strip()`. -/
def pyStrip (s : String) : String := String.mk (pyStripList s.toList)

/-- ASCII lowercasing, the ASCII fragment of Python `str.casefold()`. -/
def asciiLower (c : Char) : Char :=
  if 65 ≤ c.toNat ∧ c.toNat ≤ 90 then Char.ofNat (c.toNat + 32) else c

/-- Python `\w` on ASCII: letters, digits, underscore. -/
def isWordChar (c : Char) : Bool :=
  (48 ≤ c.toNat && c.toNat ≤ 57) || (65 ≤ c.toNat && c.toNat ≤ 90) ||
    (97 ≤ c.toNat && c.toNat ≤ 122) || c = '_'

/-- `_norm(s)`: strip, casefold, remove every non-word character. -/
def pyNorm (s : String) : String :=
  String.mk (((pyStripList s.toList).map asciiLower).filter isWordChar)

/-- Characters before the first occurrence of `" ("`. -/
def takeBeforeParen : List Char → List Char
  | [] => []
  | ' ' :: '(' :: _ => []
  | c :: rest => c :: takeBeforeParen rest

/-- `s.split(" (", 1)[0]`. -/
def splitParen (s : String) : String := String.mk (takeBeforeParen s.toList)

/-- Root part of `os.path.splitext` on a path without directory part:
drop the suffix from the last `.` on, unless every character before that
dot is itself a dot. -/
def dropLastExt (base : List Char) : List Char :=
  let rev := base.reverse
  let ext := rev.takeWhile (fun c => c ≠ '.')
  if ext.length = rev.length then base
  else
    let root := (rev.drop (ext.length + 1)).reverse
    if root.any (fun c => c ≠ '.') then root else base

/-- `os.path.splitext(s)[0]`: the extension is searched only in the part
after the last `/`. -/
def splitextRoot (s : String) : String :=
  let cs := s.toList
  let base := (cs.reverse.takeWhile (fun c => c ≠ '/')).reverse
  let dir := cs.take (cs.length - base.length)
  String.mk (dir ++ dropLastExt base)

/-! ## `pick_music_for_era` (AUDIO HANDLING section)

The resolver consults a normalized-filename index (`_music_index()`,
modelled as a partial map `String → Option String`) and threads the
process-lifetime set `_missing_eras_reported` explicitly. -/

/-- The `_add(v, bag)` helper: append the normalized key of `v` if it is
nonempty and not already collected. -/
def addCand (v : String) (bag : List String) : List String :=
  let k := pyNorm (splitextRoot v)
  if k ≠ "" ∧ k ∉ bag then bag ++ [k] else bag

/-- `s.startswith("The ")`. -/
def startsWithThe (s : String) : Bool := s.toList.take 4 == ['T', 'h', 'e', ' ']

/-- `s.endswith(" Era")`. -/
def endsWithEra (s : String) : Bool := s.toList.reverse.take 4 == ['a', 'r', 'E', ' ']

/-- `s[4:]` — drop the leading four characters. -/
def dropArticle (s : String) : String := String.mk (s.toList.drop 4)

/-- `s[:-4]` — drop the trailing four characters. -/
def dropEraSuffix (s : String) : String := String.mk (s.toList.take (s.toList.length - 4))

/-- Candidate normalized keys, in the priority order built by
`pick_music_for_era`: raw era, range-stripped base, base with leading
`"The "` toggled, base with trailing `" Era"` toggled. -/
def musicCands (eraName : String) : List String :=
  let raw := pyStrip eraName
  let base := pyStrip (splitParen raw)
  let c1 := addCand raw []
  let c2 := addCand base c1
  let c3 := if startsWithThe base then addCand (dropArticle base) c2
            else addCand ("The " ++ base) c2
  if endsWithEra base then addCand (pyStrip (dropEraSuffix base)) c3
  else addCand (base ++ " Era") c3

structure MusicLookupResult where
  path : String
  reported : List String
  warned : Bool
  deriving Repr, DecidableEq

/-- `pick_music_for_era(era_name)`, with the music index and the
`_missing_eras_reported` set passed explicitly; `warned` records whether
the one-time "track not found" diagnostic was printed by this call. -/
def pick_music_for_era (idx : String → Option String) (reported : List String) :
    Option String → MusicLookupResult
  | none => ⟨DEFAULT_MUSIC, reported, false⟩
  | some e =>
    if pyStrip e = "" then ⟨DEFAULT_MUSIC, reported, false⟩
    else
      let raw := pyStrip e
      ((musicCands e).findSome? idx).elim
        (if raw ∈ reported then ⟨DEFAULT_MUSIC, reported, false⟩
         else ⟨DEFAULT_MUSIC, reported ++ [raw], true⟩)
        (fun p => ⟨p, reported, false⟩)

/-- A whole process lifetime of resolver calls: thread the reported set
through a list of era inputs, collecting each call's result. -/
def runPicks (idx : String → Option String) :
    List String → List (Option String) → List MusicLookupResult
  | _, [] => []
  | reported, e :: es =>
    let r := pick_music_for_era idx reported e
    r :: runPicks idx r.reported es

/-- Number of calls whose input era string is exactly `some t` and which
emitted the missing-track diagnostic, over a sequence of resolver calls
threading the `_missing_eras_reported` set. -/
def warnCountFor (idx : String → Option String) :
    List String → List (Option String) → String → ℕ
  | _, [], _ => 0
  | reported, e :: es, t =>
    let r := pick_music_for_era idx reported e
    (if e = some t ∧ r.warned then 1 else 0) + warnCountFor idx r.reported es t

/-! ## Per-row duration selection and special floor (main loop) -/

/-- `era.split(" (", 1)[0].strip()` — the duration-map lookup key. -/
def baseEraOf (era : String) : String := pyStrip (splitParen era)

/-- Python `a or b` for an optional float `a`: `None` and `0.0` are
falsy and fall through to `b`. -/
def pyOrQ (a : Option ℚ) (b : ℚ) : ℚ :=
  match a with
  | some x => if x = 0 then b else x
  | none => b

/-- `era_secs = map.get(base) or map.get("The " + base) or SLIDE_DURATION`. -/
def eraSecsOf (m : String → Option ℚ) (era : String) : ℚ :=
  let base := baseEraOf era
  pyOrQ (m base) (pyOrQ (m ("The " ++ base)) SLIDE_DURATION)

/-- `dur = max(era_secs, SPECIAL_MIN_DURATION) if is_special else era_secs`. -/
def holdDuration (eraSecs : ℚ) (isSpecial : Bool) : ℚ :=
  if isSpecial then max eraSecs SPECIAL_MIN_DURATION else eraSecs

/-! ## Resume cursor (main) -/

/-- Startup read of `last_index.txt`: `none` = file absent, `some none`
= present but unparseable, `some (some k)` = parses as integer `k`;
absence and parse failure both give start index 0. -/
def readStartIdx : Option (Option ℤ) → ℤ
  | none => 0
  | some none => 0
  | some (some k) => k

/-- Row indices visited by `for i in range(start_idx, total)`. -/
def processedRows (startIdx total : ℕ) : List ℕ :=
  List.range' startIdx (total - startIdx)

/-- Cursor values written to `last_index.txt` during the run (row `i`
persists `i` after committing); the file ends up holding the last one. -/
def lastPersisted (startIdx total : ℕ) : Option ℕ :=
  (processedRows startIdx total).getLast?

/-! ## Audio feeder decoder switching (`audio_feeder_loop`) -/

/-- Path returned by `pick_music_for_era` — it does not depend on the
reported-set state, so the feeder's per-iteration resolution is pure. -/
def pickMusicPath (idx : String → Option String) (eraName : Option String) : String :=
  (pick_music_for_era idx [] eraName).path

structure FeederEvents where
  terminated : Bool
  spawned : Bool
  deriving Repr, DecidableEq

/-- One iteration of the feeder loop's switching logic: resolve the
current era; when the resolved file differs from `current_file`,
terminate the old decoder (if one exists) and spawn a new one. -/
def feederStep (idx : String → Option String) (currentFile : Option String)
    (era : Option String) : Option String × FeederEvents :=
  let musicFile := pickMusicPath idx era
  if some musicFile = currentFile then (currentFile, ⟨false, false⟩)
  else (some musicFile, ⟨currentFile.isSome, true⟩)

/-- Feeder iterations over a sequence of observed era readings. -/
def feederRun (idx : String → Option String) :
    Option String → List (Option String) → Option String × List FeederEvents
  | cur, [] => (cur, [])
  | cur, e :: es =>
    let s := feederStep idx cur e
    let r := feederRun idx s.1 es
    (r.1, s.2 :: r.2)

/-- Number of decoder switches: iterations that terminated a live
decoder to replace it. -/
def switchCount (events : List FeederEvents) : ℕ :=
  (events.filter (fun ev => ev.terminated)).length

/-! ## Corner overlay rotation and block scheduling

`corner_overlay_pick` chooses the rotation entry for a block;
the main loop starts a block whenever `slide_no % 50 == 1 and
slide_no != 1` and then composites the prepared overlay onto the next
`CORNER_OVERLAY_SHOW_M_SLIDES` slides. Prepared images are modelled by
their source paths (`corner_overlay_prepare` only performs image I/O). -/

/-- `corner_overlay_pick(cycle_idx)`: even entries cycle the promo pool,
odd entries index the sponsor pool pinning to its first element when
exhausted; an empty pool falls back to the other, both empty gives
`None`. -/
def corner_overlay_pick (promos sponsors : List String) (cycleIdx : ℕ) : Option String :=
  if promos = [] ∧ sponsors = [] then none
  else
    let n := cycleIdx / 2
    if cycleIdx % 2 = 0 then
      if promos ≠ [] then promos.get? (n % promos.length)
      else if sponsors ≠ [] then sponsors.get? (n % sponsors.length)
      else none
    else
      if sponsors ≠ [] then
        if n < sponsors.length then sponsors.get? n else sponsors.get? 0
      else if promos ≠ [] then promos.get? (n % promos.length)
      else none

structure OverlayState where
  cycleIdx : ℕ
  blockRemaining : ℕ
  current : Option String
  deriving Repr, DecidableEq

/-- One slide's worth of the main loop's corner-overlay logic, for
1-based slide number `slideNo`: possibly start a new block, then
composite (emit) the current overlay when a block is active. -/
def overlayStep (promos sponsors : List String) (st : OverlayState) (slideNo : ℕ) :
    OverlayState × Option String :=
  let st1 :=
    if slideNo % CORNER_OVERLAY_EVERY_N_SLIDES = 1 ∧ slideNo ≠ 1 then
      { cycleIdx := st.cycleIdx + 1
        blockRemaining := CORNER_OVERLAY_SHOW_M_SLIDES
        current := corner_overlay_pick promos sponsors st.cycleIdx }
    else st
  if 0 < st1.blockRemaining ∧ st1.current ≠ none then
    ({ st1 with blockRemaining := st1.blockRemaining - 1 }, st1.current)
  else (st1, none)

/-- Overlay state after the main loop has processed slides `1..n`
(run started at row 0, so `overlay_cycle_idx = 0`, no active block). -/
def overlayStateAfter (promos sponsors : List String) : ℕ → OverlayState
  | 0 => ⟨0, 0, none⟩
  | n + 1 => (overlayStep promos sponsors (overlayStateAfter promos sponsors n) (n + 1)).1

/-- The overlay composited onto slide `s` (1-based), if any. -/
def overlayEmitAt (promos sponsors : List String) (s : ℕ) : Option String :=
  (overlayStep promos sponsors (overlayStateAfter promos sponsors (s - 1)) s).2

/-- Closed form of the overlay state before processing slide `s`:
blocks start at slides `51, 101, 151, …`, block `k` holding rotation
entry `k` for four slides. -/
def expOverlayState (promos sponsors : List String) (s : ℕ) : OverlayState :=
  if s ≤ 50 then ⟨0, 0, none⟩
  else
    let k := (s - 51) / 50
    let r := (s - 51) % 50
    if r = 0 then
      if k = 0 then ⟨0, 0, none⟩
      else
        (corner_overlay_pick promos sponsors (k - 1)).elim
          ⟨k, 4, none⟩ (fun p => ⟨k, 0, some p⟩)
    else
      (corner_overlay_pick promos sponsors k).elim
        ⟨k + 1, 4, none⟩ (fun p => ⟨k + 1, 4 - min r 4, some p⟩)

/-- Closed form of the overlay composited onto slide `s`: rotation entry
`(s - 51) / 50` exactly on the four slides of each block. -/
def expOverlayEmit (promos sponsors : List String) (s : ℕ) : Option String :=
  if 51 ≤ s ∧ (s - 51) % 50 < 4 then
    corner_overlay_pick promos sponsors ((s - 51) / 50)
  else none

/-! ## Theorems -/

/-- Concrete evaluation: one second of frames at 30 fps. -/
lemma sendFrameTotal_one : sendFrameTotal 1 = 30 := by
  norm_num [sendFrameTotal, FPS, pyRound]
  rfl

/-- Concrete evaluation: three seconds of frames at 30 fps. -/
lemma sendFrameTotal_three : sendFrameTotal 3 = 90 := by
  norm_num [sendFrameTotal, FPS, pyRound]
  rfl

/-- Concrete evaluation: the fixed 0.5-second crossfade has 15 steps. -/
lemma crossfadeSteps_half : crossfadeSteps CROSSFADE_DURATION = 15 := by
  norm_num [crossfadeSteps, CROSSFADE_DURATION, FPS, pyTrunc]
  rfl

/-- Concrete evaluation: truncation at duration 0.49 gives 14 steps. -/
lemma crossfadeSteps_at_049 : crossfadeSteps (49 / 100) = 14 := by
  norm_num [crossfadeSteps, FPS, pyTrunc]
  rfl

/-- Concrete evaluation: the spec's rounding formula at 0.49 gives 15. -/
lemma specCrossfadeSteps_at_049 : specCrossfadeSteps (49 / 100) = 15 := by
  norm_num [specCrossfadeSteps, FPS, pyRound]
  rfl

/-- Closed form of the retry loop: starting from tick `sent`, once the
outcome schedule contains enough successful writes, the loop delivers
exactly the ticks `sent, sent+1, …, total-1`, each once, in order. -/
lemma sendFrameTicksAux_closed :
    ∀ (outcomes : List Bool) (total sent : ℕ), sent ≤ total →
      total - sent ≤ outcomes.count true →
      sendFrameTicksAux total outcomes sent = List.range' sent (total - sent) := by
  intro outcomes
  induction outcomes with
  | nil =>
    intro total sent hle hc
    simp only [List.count_nil, Nat.le_zero] at hc
    rw [sendFrameTicksAux, hc]
    rfl
  | cons ok rest ih =>
    intro total sent hle hc
    by_cases hlt : sent < total
    · cases ok with
      | false =>
        rw [sendFrameTicksAux, if_pos hlt]
        simp only [Bool.false_eq_true, if_false]
        apply ih total sent hle
        simpa using hc
      | true =>
        rw [sendFrameTicksAux, if_pos hlt]
        simp only [if_true]
        have hc' : total - (sent + 1) ≤ rest.count true := by
          simp [List.count_cons] at hc
          omega
        rw [ih total (sent + 1) (by omega) hc']
        rw [show total - sent = (total - (sent + 1)) + 1 by omega, List.range'_succ]
    · have hst : sent = total := by omega
      rw [sendFrameTicksAux, if_neg hlt, show total - sent = 0 by omega]
      rfl

/-- C2: with an encoder session present, a `send_frame(frame, duration)`
call delivers exactly `round(FPS × duration)` frame ticks in total once
enough writes succeed, never re-sending a delivered tick (the delivered
ticks are precisely `0, …, total-1`, each once, in order); a restart
resumes with exactly the remaining ticks — in particular a failure on
tick 40 of 90 is followed by exactly the 50 ticks `40..89`. -/
theorem C2_send_frame_exact_delivery :
    (∀ (p : Option FfmpegProc) (d : ℚ) (outcomes : List Bool),
        procReady p = true → sendFrameTotal d ≤ outcomes.count true →
        sendFrameTicks p d outcomes = List.range (sendFrameTotal d)) ∧
    (∀ (total sent : ℕ) (rest : List Bool), sent ≤ total →
        total - sent ≤ rest.count true →
        sendFrameTicksAux total rest sent = List.range' sent (total - sent)) ∧
    sendFrameTotal 3 = 90 ∧
    sendFrameTicks (some ⟨some ()⟩) 3
        (List.replicate 40 true ++ false :: List.replicate 50 true) = List.range 90 ∧
    sendFrameTicksAux 90 (List.replicate 50 true) 40 = List.range' 40 50 := by
  have hp : procReady (some ⟨some ()⟩) = true := rfl
  refine ⟨?_, ?_, sendFrameTotal_three, ?_, ?_⟩
  · intro p d outcomes hp' hc
    rw [sendFrameTicks, if_pos hp',
      sendFrameTicksAux_closed outcomes (sendFrameTotal d) 0 (Nat.zero_le _) (by simpa using hc),
      Nat.sub_zero, List.range_eq_range']
  · intro total sent rest hle hc
    exact sendFrameTicksAux_closed rest total sent hle hc
  · have hcount : (List.replicate 40 true ++ false :: List.replicate 50 true).count true = 90 := by
      simp [List.count_append, List.count_replicate, List.count_cons]
    rw [sendFrameTicks, if_pos hp, sendFrameTotal_three,
      sendFrameTicksAux_closed _ 90 0 (Nat.zero_le _) (by rw [hcount]),
      Nat.sub_zero, List.range_eq_range']
  · have h := sendFrameTicksAux_closed (List.replicate 50 true) 90 40 (by omega)
      (by simp [List.count_replicate])
    simpa using h

/-- Witness for C2 at a one-second still frame over an all-success
schedule. -/
theorem C2_send_frame_exact_delivery_witness :
    sendFrameTicks (some ⟨some ()⟩) 1 (List.replicate 30 true)
      = List.range (sendFrameTotal 1) :=
  C2_send_frame_exact_delivery.1 (some ⟨some ()⟩) 1 (List.replicate 30 true) rfl
    (by rw [sendFrameTotal_one]; simp [List.count_replicate])

/-- C3 counterexample: at `duration = 0.49` the code computes
`steps = max(1, int(30 × 0.49)) = 14` blended frames (truncation), while
the claimed formula `max(1, round(30 × 0.49))` gives 15. -/
theorem C3_counterexample :
    (sendCrossfadeStepsDelivered (some ⟨some ()⟩) (49 / 100) (List.replicate 20 true)).length
        ≠ specCrossfadeSteps (49 / 100) ∧
    (sendCrossfadeStepsDelivered (some ⟨some ()⟩) (49 / 100) (List.replicate 20 true)).length
        = crossfadeSteps (49 / 100) ∧
    crossfadeSteps (49 / 100) = 14 ∧ specCrossfadeSteps (49 / 100) = 15 := by
  have hp : procReady (some ⟨some ()⟩) = true := rfl
  have hd : sendCrossfadeStepsDelivered (some ⟨some ()⟩) (49 / 100) (List.replicate 20 true)
      = List.range 14 := by
    rw [sendCrossfadeStepsDelivered, if_pos hp, crossfadeSteps_at_049]
    decide
  refine ⟨?_, ?_, crossfadeSteps_at_049, specCrossfadeSteps_at_049⟩
  · rw [hd, specCrossfadeSteps_at_049]
    decide
  · rw [hd, crossfadeSteps_at_049]
    decide

/-- C3 (amended): the number of blended frames written by
`send_crossfade(A, B, duration)` equals
`steps = max(1, int(frameRate × duration))` — truncation, not rounding —
summed across restarts; step `i` carries blend weight `i/steps`, the
delivered alphas increase strictly from `0` to `(steps-1)/steps`, and a
mid-sequence restart resumes at the next unsent blend step. -/
theorem C3_amended_crossfade :
    (∀ (p : Option FfmpegProc) (d : ℚ) (outcomes : List Bool),
        procReady p = true → crossfadeSteps d ≤ outcomes.count true →
        sendCrossfadeStepsDelivered p d outcomes = List.range (crossfadeSteps d)) ∧
    (∀ (d : ℚ) (sent : ℕ) (rest : List Bool), sent ≤ crossfadeSteps d →
        crossfadeSteps d - sent ≤ rest.count true →
        sendFrameTicksAux (crossfadeSteps d) rest sent
          = List.range' sent (crossfadeSteps d - sent)) ∧
    (∀ d : ℚ, 1 ≤ crossfadeSteps d) ∧
    (∀ d : ℚ, crossfadeAlpha (crossfadeSteps d) 0 = 0) ∧
    (∀ (d : ℚ) (i j : ℕ), i < j → j < crossfadeSteps d →
        crossfadeAlpha (crossfadeSteps d) i < crossfadeAlpha (crossfadeSteps d) j) := by
  refine ⟨?_, ?_, ?_, ?_, ?_⟩
  · intro p d outcomes hp hc
    rw [sendCrossfadeStepsDelivered, if_pos hp,
      sendFrameTicksAux_closed outcomes (crossfadeSteps d) 0 (Nat.zero_le _) (by simpa using hc),
      Nat.sub_zero, List.range_eq_range']
  · intro d sent rest hle hc
    exact sendFrameTicksAux_closed rest (crossfadeSteps d) sent hle hc
  · intro d
    exact le_max_left 1 _
  · intro d
    simp [crossfadeAlpha]
  · intro d i j hij hj
    have hpos : (0 : ℚ) < (crossfadeSteps d : ℚ) := by
      have : 1 ≤ crossfadeSteps d := le_max_left 1 _
      exact_mod_cast Nat.lt_of_lt_of_le Nat.zero_lt_one this
    exact div_lt_div_of_pos_right (by exact_mod_cast hij) hpos

/-- Witness for the amended C3 at the fixed 0.5-second crossfade. -/
theorem C3_amended_crossfade_witness :
    sendCrossfadeStepsDelivered (some ⟨some ()⟩) CROSSFADE_DURATION (List.replicate 15 true)
        = List.range (crossfadeSteps CROSSFADE_DURATION) ∧
    crossfadeAlpha (crossfadeSteps CROSSFADE_DURATION) 2
      < crossfadeAlpha (crossfadeSteps CROSSFADE_DURATION) 3 :=
  ⟨C3_amended_crossfade.1 (some ⟨some ()⟩) CROSSFADE_DURATION (List.replicate 15 true)
      rfl (by rw [crossfadeSteps_half]; simp [List.count_replicate]),
   C3_amended_crossfade.2.2.2.2 CROSSFADE_DURATION 2 3 (by omega)
      (by rw [crossfadeSteps_half]; omega)⟩

/-- C8: for a special row the hold duration is the selected duration
clamped to at least `SPECIAL_MIN_DURATION = 5`; for a non-special row it
is the selected duration unchanged; in particular a special row whose
topic override selects 3.0 s holds for exactly 5.0 s. -/
theorem C8_special_floor :
    (∀ q : ℚ, holdDuration q true = max q SPECIAL_MIN_DURATION) ∧
    (∀ q : ℚ, holdDuration q false = q) ∧
    eraSecsOf (fun k => if k = "Dark Ages" then some 3 else none) "Dark Ages" = 3 ∧
    holdDuration (eraSecsOf (fun k => if k = "Dark Ages" then some 3 else none) "Dark Ages") true = 5 ∧
    SPECIAL_MIN_DURATION = 5 :=
  ⟨fun _ => rfl, fun _ => rfl, by decide, by decide, rfl⟩

/-- C9: a zero-valued duration override is skipped by the `or`-chained
lookup — the value falls through to the `"The "`-prefixed key and then
to `SLIDE_DURATION = 4`. -/
theorem C9_zero_override_ignored :
    (∀ (m : String → Option ℚ) (era : String) (y : ℚ),
        m (baseEraOf era) = some 0 → m ("The " ++ baseEraOf era) = some y → y ≠ 0 →
        eraSecsOf m era = y) ∧
    (∀ (m : String → Option ℚ) (era : String),
        m (baseEraOf era) = some 0 →
        (m ("The " ++ baseEraOf era) = none ∨ m ("The " ++ baseEraOf era) = some 0) →
        eraSecsOf m era = SLIDE_DURATION) := by
  constructor
  · intro m era y h0 hthe hy
    simp [eraSecsOf, pyOrQ, h0, hthe, hy]
  · intro m era h0 hthe
    rcases hthe with h | h <;> simp [eraSecsOf, pyOrQ, h0, h]

/-- Witness for C9 at a concrete override map. -/
theorem C9_zero_override_ignored_witness :
    eraSecsOf (fun k => if k = "Iron Age" then some 0 else
      if k = "The Iron Age" then some 7 else none) "Iron Age" = 7 ∧
    eraSecsOf (fun k => if k = "Iron Age" then some 0 else none) "Iron Age" = SLIDE_DURATION := by
  constructor
  · exact C9_zero_override_ignored.1 _ "Iron Age" 7 (by decide) (by decide) (by decide)
  · exact C9_zero_override_ignored.2 _ "Iron Age" (by decide) (Or.inl (by decide))

/-- C10: with no encoder handle (or a handle without stdin) both
`send_frame` and `send_crossfade` return at once: no frames are
written and no restart is attempted. -/
theorem C10_missing_encoder_drops_all :
    procReady none = false ∧ procReady (some ⟨none⟩) = false ∧
    (∀ (p : Option FfmpegProc) (d : ℚ) (outcomes : List Bool), procReady p = false →
      sendFrameTicks p d outcomes = [] ∧ sendFrameRestarts p d outcomes = 0 ∧
      sendCrossfadeStepsDelivered p d outcomes = [] ∧ sendCrossfadeRestarts p d outcomes = 0) := by
  refine ⟨rfl, rfl, ?_⟩
  intro p d outcomes h
  refine ⟨?_, ?_, ?_, ?_⟩ <;>
    simp [sendFrameTicks, sendFrameRestarts, sendCrossfadeStepsDelivered,
      sendCrossfadeRestarts, h]

/-- Witness for C10 at the absent-process handle. -/
theorem C10_missing_encoder_drops_all_witness :
    sendFrameTicks none 1 [true] = [] ∧ sendFrameRestarts none 1 [true] = 0 ∧
    sendCrossfadeStepsDelivered none 1 [true] = [] ∧ sendCrossfadeRestarts none 1 [true] = 0 :=
  C10_missing_encoder_drops_all.2.2 none 1 [true] rfl

/-- C4 counterexample: with an override map containing only
`"Bronze Age" ↦ 2`, the row topic `"The Bronze Age"` resolves to the
base duration 4, not 2: the lookup never tries the topic with its
leading `"The"` removed. -/
theorem C4_counterexample :
    eraSecsOf (fun k => if k = "Bronze Age" then some 2 else none) "The Bronze Age"
      = SLIDE_DURATION ∧
    (fun k => if k = "Bronze Age" then (some 2 : Option ℚ) else none) "Bronze Age" = some 2 ∧
    SLIDE_DURATION ≠ (2 : ℚ) :=
  ⟨by decide, by decide, by decide⟩

/-- C4 (amended): the duration lookup consults the override map at
exactly two keys — the range-stripped topic as-is and with `"The "`
prepended (a topic already starting with `"The"` is not retried with the
article removed); the first truthy hit wins and otherwise
`SLIDE_DURATION = 4` is used. -/
theorem C4_amended_duration_lookup :
    (∀ (m : String → Option ℚ) (era : String) (x : ℚ),
        m (baseEraOf era) = some x → x ≠ 0 → eraSecsOf m era = x) ∧
    (∀ (m : String → Option ℚ) (era : String) (y : ℚ),
        (m (baseEraOf era) = none ∨ m (baseEraOf era) = some 0) →
        m ("The " ++ baseEraOf era) = some y → y ≠ 0 → eraSecsOf m era = y) ∧
    (∀ (m : String → Option ℚ) (era : String),
        (m (baseEraOf era) = none ∨ m (baseEraOf era) = some 0) →
        (m ("The " ++ baseEraOf era) = none ∨ m ("The " ++ baseEraOf era) = some 0) →
        eraSecsOf m era = SLIDE_DURATION) ∧
    (∀ (m m' : String → Option ℚ) (era : String),
        m (baseEraOf era) = m' (baseEraOf era) →
        m ("The " ++ baseEraOf era) = m' ("The " ++ baseEraOf era) →
        eraSecsOf m era = eraSecsOf m' era) := by
  refine ⟨?_, ?_, ?_, ?_⟩
  · intro m era x hx hx0
    simp [eraSecsOf, pyOrQ, hx, hx0]
  · intro m era y h0 hthe hy
    rcases h0 with h | h <;> simp [eraSecsOf, pyOrQ, h, hthe, hy]
  · intro m era h0 hthe
    rcases h0 with h | h <;> rcases hthe with h' | h' <;>
      simp [eraSecsOf, pyOrQ, h, h']
  · intro m m' era h1 h2
    simp [eraSecsOf, pyOrQ, h1, h2]

/-- Witness for the amended C4 at concrete maps. -/
theorem C4_amended_duration_lookup_witness :
    eraSecsOf (fun k => if k = "Stone Age" then some 6 else none) "Stone Age (10000 BC)" = 6 ∧
    eraSecsOf (fun k => if k = "The Stone Age" then some 7 else none) "Stone Age" = 7 ∧
    eraSecsOf (fun _ => none) "Stone Age" = SLIDE_DURATION := by
  refine ⟨?_, ?_, ?_⟩
  · exact C4_amended_duration_lookup.1 _ "Stone Age (10000 BC)" 6 (by decide) (by decide)
  · exact C4_amended_duration_lookup.2.1 _ "Stone Age" 7 (Or.inl (by decide)) (by decide) (by decide)
  · exact C4_amended_duration_lookup.2.2.1 _ "Stone Age" (Or.inl (by decide)) (Or.inl (by decide))

/-- Unfolding equation of the resolver on a present era string. -/
lemma pick_some_eq (idx : String → Option String) (reported : List String) (e : String) :
    pick_music_for_era idx reported (some e) =
      (if pyStrip e = "" then ⟨DEFAULT_MUSIC, reported, false⟩
       else
        ((musicCands e).findSome? idx).elim
          (if pyStrip e ∈ reported then ⟨DEFAULT_MUSIC, reported, false⟩
           else ⟨DEFAULT_MUSIC, reported ++ [pyStrip e], true⟩)
          (fun p => ⟨p, reported, false⟩)) := rfl

/-- Case analysis of one resolver call on a non-`None` era: either no
diagnostic is emitted and the reported set is unchanged, or the
diagnostic fires, the stripped era was not yet reported, and it is
appended to the reported set. -/
lemma pick_cases (idx : String → Option String) (reported : List String) (s : String) :
    ((pick_music_for_era idx reported (some s)).warned = false ∧
      (pick_music_for_era idx reported (some s)).reported = reported) ∨
    ((pick_music_for_era idx reported (some s)).warned = true ∧ pyStrip s ∉ reported ∧
      (pick_music_for_era idx reported (some s)).reported = reported ++ [pyStrip s]) := by
  rw [pick_some_eq]
  by_cases h1 : pyStrip s = ""
  · rw [if_pos h1]
    exact Or.inl ⟨rfl, rfl⟩
  · rw [if_neg h1]
    cases hf : (musicCands s).findSome? idx with
    | some p => exact Or.inl ⟨rfl, rfl⟩
    | none =>
      by_cases hm : pyStrip s ∈ reported
      · rw [if_pos hm]
        exact Or.inl ⟨rfl, rfl⟩
      · rw [if_neg hm]
        exact Or.inr ⟨rfl, hm, rfl⟩

/-- The reported set only grows across a resolver call. -/
lemma pick_reported_mono (idx : String → Option String) (reported : List String)
    (e : Option String) (x : String) (hx : x ∈ reported) :
    x ∈ (pick_music_for_era idx reported e).reported := by
  cases e with
  | none => exact hx
  | some s =>
    rcases pick_cases idx reported s with ⟨_, hr⟩ | ⟨_, _, hr⟩ <;> rw [hr] <;> simp [hx]

/-- A call that warns leaves the stripped era in the reported set. -/
lemma pick_warned_mem (idx : String → Option String) (reported : List String) (s : String)
    (hw : (pick_music_for_era idx reported (some s)).warned = true) :
    pyStrip s ∈ (pick_music_for_era idx reported (some s)).reported := by
  rcases pick_cases idx reported s with ⟨hw', _⟩ | ⟨_, _, hr⟩
  · rw [hw'] at hw; cases hw
  · rw [hr]; simp

/-- A call whose stripped era is already reported does not warn. -/
lemma pick_not_warned (idx : String → Option String) (reported : List String) (s : String)
    (hmem : pyStrip s ∈ reported) :
    (pick_music_for_era idx reported (some s)).warned = false := by
  rcases pick_cases idx reported s with ⟨hw, _⟩ | ⟨_, hnm, _⟩
  · exact hw
  · exact absurd hmem hnm

/-- Over any run, the diagnostic for a fixed raw era string fires at
most once; and never once its stripped form is already reported. -/
lemma warnCount_invariant (idx : String → Option String) :
    ∀ (eras : List (Option String)) (reported : List String) (t : String),
      warnCountFor idx reported eras t ≤ 1 ∧
      (pyStrip t ∈ reported → warnCountFor idx reported eras t = 0) := by
  intro eras
  induction eras with
  | nil => intro reported t; exact ⟨by simp [warnCountFor], fun _ => rfl⟩
  | cons e es ih =>
    intro reported t
    constructor
    · by_cases hcond : e = some t ∧ (pick_music_for_era idx reported e).warned = true
      · obtain ⟨he, hw⟩ := hcond
        subst he
        have hmem := pick_warned_mem idx reported t hw
        have h0 := (ih (pick_music_for_era idx reported (some t)).reported t).2 hmem
        simp [warnCountFor, hw, h0]
      · have h1 := (ih (pick_music_for_era idx reported e).reported t).1
        simp only [warnCountFor, if_neg hcond]
        omega
    · intro hmem
      have h0 := (ih (pick_music_for_era idx reported e).reported t).2
        (pick_reported_mono idx reported e (pyStrip t) hmem)
      by_cases he : e = some t
      · subst he
        have hw := pick_not_warned idx reported t hmem
        simp [warnCountFor, hw, h0]
      · simp [warnCountFor, he, h0]

/-- C5: the era→music resolver never fails — a `None`/blank topic and a
topic all of whose candidate keys miss the index both resolve to the
default track — and over a whole process lifetime the missing-track
diagnostic fires at most once per distinct raw topic string. -/
theorem C5_music_resolver_default_and_one_shot_diag :
    (∀ (idx : String → Option String) (reported : List String),
        (pick_music_for_era idx reported none).path = DEFAULT_MUSIC) ∧
    (∀ (idx : String → Option String) (reported : List String) (e : String),
        pyStrip e = "" → (pick_music_for_era idx reported (some e)).path = DEFAULT_MUSIC) ∧
    (∀ (idx : String → Option String) (reported : List String) (e : String),
        (∀ k ∈ musicCands e, idx k = none) →
        (pick_music_for_era idx reported (some e)).path = DEFAULT_MUSIC) ∧
    (∀ (idx : String → Option String) (eras : List (Option String)) (t : String),
        warnCountFor idx [] eras t ≤ 1) := by
  refine ⟨fun _ _ => rfl, ?_, ?_, ?_⟩
  · intro idx reported e h1
    rw [pick_some_eq, if_pos h1]
  · intro idx reported e hmiss
    rw [pick_some_eq]
    have hf : (musicCands e).findSome? idx = none := List.findSome?_eq_none_iff.mpr hmiss
    rw [hf]
    by_cases h1 : pyStrip e = ""
    · rw [if_pos h1]
    · rw [if_neg h1]
      by_cases hm : pyStrip e ∈ reported
      · rw [if_pos hm]
        rfl
      · rw [if_neg hm]
        rfl
  · intro idx eras t
    exact (warnCount_invariant idx eras [] t).1

/-- Witness for C5: a blank topic and an unmatched topic both resolve to
the default track under an empty index. -/
theorem C5_music_resolver_default_and_one_shot_diag_witness :
    (pick_music_for_era (fun _ => none) [] (some "   ")).path = DEFAULT_MUSIC ∧
    (pick_music_for_era (fun _ => none) [] (some "Atlantis")).path = DEFAULT_MUSIC :=
  ⟨C5_music_resolver_default_and_one_shot_diag.2.1 (fun _ => none) [] "   " (by decide),
   C5_music_resolver_default_and_one_shot_diag.2.2.1 (fun _ => none) [] "Atlantis"
     (by decide)⟩

/-- Slides 1–50 carry the initial (inactive) overlay state. -/
lemma expState_le50 (ps ss : List String) (s : ℕ) (h : s ≤ 50) :
    expOverlayState ps ss s = ⟨0, 0, none⟩ := by
  rw [expOverlayState, if_pos h]

/-- Closed-form state before a block-start slide `51 + 50k`. -/
lemma expState_blockStart (ps ss : List String) (k : ℕ) :
    expOverlayState ps ss (51 + 50 * k)
      = (if k = 0 then ⟨0, 0, none⟩ else
          (corner_overlay_pick ps ss (k - 1)).elim
            ⟨k, 4, none⟩ (fun p => ⟨k, 0, some p⟩)) := by
  have h0 : ¬ (51 + 50 * k ≤ 50) := by omega
  have h1 : (51 + 50 * k - 51) / 50 = k := by omega
  have h2 : (51 + 50 * k - 51) % 50 = 0 := by omega
  rw [expOverlayState, if_neg h0]
  simp [h1, h2]

/-- Closed-form state before slide `51 + 50k + r` with `1 ≤ r < 50`. -/
lemma expState_inBlock (ps ss : List String) (k r : ℕ) (h1r : 1 ≤ r) (hr : r < 50) :
    expOverlayState ps ss (51 + 50 * k + r)
      = (corner_overlay_pick ps ss k).elim
          ⟨k + 1, 4, none⟩ (fun p => ⟨k + 1, 4 - min r 4, some p⟩) := by
  have h0 : ¬ (51 + 50 * k + r ≤ 50) := by omega
  have h1 : (51 + 50 * k + r - 51) / 50 = k := by omega
  have h2 : (51 + 50 * k + r - 51) % 50 = r := by omega
  have h3 : r ≠ 0 := by omega
  rw [expOverlayState, if_neg h0]
  simp [h1, h2, h3]

/-- On a non-boundary slide the step only composites/decrements. -/
lemma overlayStep_noStart (ps ss : List String) (st : OverlayState) (s : ℕ)
    (h : ¬ (s % 50 = 1 ∧ s ≠ 1)) :
    overlayStep ps ss st s
      = if 0 < st.blockRemaining ∧ st.current ≠ none
        then ({ st with blockRemaining := st.blockRemaining - 1 }, st.current)
        else (st, none) := by
  simp [overlayStep, CORNER_OVERLAY_EVERY_N_SLIDES, CORNER_OVERLAY_SHOW_M_SLIDES, h]

/-- On a block-start slide the step picks the rotation entry, arms the
four-slide countdown, and composites when the pick succeeded. -/
lemma overlayStep_start (ps ss : List String) (st : OverlayState) (s : ℕ)
    (h1 : s % 50 = 1) (h2 : s ≠ 1) :
    overlayStep ps ss st s
      = (corner_overlay_pick ps ss st.cycleIdx).elim
          (⟨st.cycleIdx + 1, 4, none⟩, none)
          (fun p => (⟨st.cycleIdx + 1, 3, some p⟩, some p)) := by
  cases hp : corner_overlay_pick ps ss st.cycleIdx with
  | none =>
    simp [overlayStep, CORNER_OVERLAY_EVERY_N_SLIDES, CORNER_OVERLAY_SHOW_M_SLIDES, h1, h2, hp]
  | some p =>
    simp [overlayStep, CORNER_OVERLAY_EVERY_N_SLIDES, CORNER_OVERLAY_SHOW_M_SLIDES, h1, h2, hp]

/-- One step of the main loop's overlay logic carries the closed-form
state to the next slide's closed-form state and emits the closed-form
overlay for the current slide. -/
lemma overlayStep_exp (ps ss : List String) (s : ℕ) (hs : 1 ≤ s) :
    overlayStep ps ss (expOverlayState ps ss s) s
      = (expOverlayState ps ss (s + 1), expOverlayEmit ps ss s) := by
  rcases Nat.lt_or_ge s 51 with h50 | h51
  · have hns : ¬ (s % 50 = 1 ∧ s ≠ 1) := by omega
    rw [expState_le50 ps ss s (by omega), overlayStep_noStart ps ss _ s hns]
    have hemit : expOverlayEmit ps ss s = none := by
      rw [expOverlayEmit, if_neg (by omega)]
    rw [hemit, if_neg (by simp)]
    rcases Nat.lt_or_ge s 50 with h49 | h50'
    · rw [expState_le50 ps ss (s + 1) (by omega)]
    · have hs50 : s = 50 := by omega
      subst hs50
      rw [show (50 : ℕ) + 1 = 51 + 50 * 0 by norm_num, expState_blockStart]
      simp
  · obtain ⟨k, r, hkr, hrlt⟩ : ∃ k r, s = 51 + 50 * k + r ∧ r < 50 :=
      ⟨(s - 51) / 50, (s - 51) % 50, by omega, by omega⟩
    subst hkr
    rcases Nat.eq_zero_or_pos r with rfl | hrpos
    · rw [Nat.add_zero] at *
      have hmod : (51 + 50 * k) % 50 = 1 := by omega
      have hne1 : 51 + 50 * k ≠ 1 := by omega
      have hcyc : (expOverlayState ps ss (51 + 50 * k)).cycleIdx = k := by
        rw [expState_blockStart]
        by_cases hk0 : k = 0
        · rw [if_pos hk0, hk0]
        · rw [if_neg hk0]
          cases corner_overlay_pick ps ss (k - 1) <;> rfl
      rw [overlayStep_start ps ss _ _ hmod hne1, hcyc]
      rw [show 51 + 50 * k + 1 = 51 + 50 * k + 1 from rfl,
        expState_inBlock ps ss k 1 (by omega) (by omega)]
      have hemit : expOverlayEmit ps ss (51 + 50 * k) = corner_overlay_pick ps ss k := by
        rw [expOverlayEmit, if_pos ⟨by omega, by omega⟩]
        congr 1
        omega
      rw [hemit]
      cases corner_overlay_pick ps ss k <;> simp
    · have hnostart : ¬ ((51 + 50 * k + r) % 50 = 1 ∧ 51 + 50 * k + r ≠ 1) := by
        omega
      rw [expState_inBlock ps ss k r hrpos hrlt, overlayStep_noStart ps ss _ _ hnostart]
      by_cases hr4 : r < 4
      · have hemit : expOverlayEmit ps ss (51 + 50 * k + r) = corner_overlay_pick ps ss k := by
          rw [expOverlayEmit, if_pos ⟨by omega, by omega⟩]
          congr 1
          omega
        rw [hemit, show 51 + 50 * k + r + 1 = 51 + 50 * k + (r + 1) by omega,
          expState_inBlock ps ss k (r + 1) (by omega) (by omega)]
        cases corner_overlay_pick ps ss k with
        | none => simp
        | some p =>
          simp only [Option.elim_some]
          rw [if_pos ⟨by omega, by simp⟩]
          simp [Option.elim_some, Prod.mk.injEq, OverlayState.mk.injEq]
          all_goals omega
      · have hemit : expOverlayEmit ps ss (51 + 50 * k + r) = none := by
          rw [expOverlayEmit, if_neg (by omega)]
        rw [hemit]
        by_cases hr49 : r = 49
        · subst hr49
          rw [show 51 + 50 * k + 49 + 1 = 51 + 50 * (k + 1) by ring,
            expState_blockStart ps ss (k + 1), if_neg (by omega : ¬ k + 1 = 0),
            show k + 1 - 1 = k by omega]
          cases corner_overlay_pick ps ss k with
          | none => simp
          | some p =>
            simp only [Option.elim_some]
            rw [if_neg (by rintro ⟨h1, -⟩; omega)]
            simp [Option.elim_some, Prod.mk.injEq, OverlayState.mk.injEq]
        · rw [show 51 + 50 * k + r + 1 = 51 + 50 * k + (r + 1) by omega,
            expState_inBlock ps ss k (r + 1) (by omega) (by omega)]
          cases corner_overlay_pick ps ss k with
          | none => simp
          | some p =>
            simp only [Option.elim_some]
            rw [if_neg (by rintro ⟨h1, -⟩; omega)]
            simp [Option.elim_some, Prod.mk.injEq, OverlayState.mk.injEq]
            all_goals omega

/-- The overlay state after slide `n` matches the closed form for the
next slide. -/
lemma overlayStateAfter_eq (ps ss : List String) :
    ∀ n, overlayStateAfter ps ss n = expOverlayState ps ss (n + 1) := by
  intro n
  induction n with
  | zero => rw [overlayStateAfter, expState_le50 ps ss 1 (by omega)]
  | succ n ih =>
    rw [overlayStateAfter, ih, overlayStep_exp ps ss (n + 1) (by omega)]

/-- The overlay composited onto each slide matches the closed form. -/
lemma overlayEmitAt_eq (ps ss : List String) (s : ℕ) (hs : 1 ≤ s) :
    overlayEmitAt ps ss s = expOverlayEmit ps ss s := by
  obtain ⟨m, rfl⟩ : ∃ m, s = m + 1 := ⟨s - 1, by omega⟩
  rw [overlayEmitAt, Nat.add_sub_cancel, overlayStateAfter_eq,
    overlayStep_exp ps ss (m + 1) (by omega)]

/-- C6: with interval 50 and hold 4, an overlay block starts exactly at
1-indexed slides 51, 101, 151, … (never at slide 1): block `k`
composites rotation entry `k` onto the four slides `50k+51 .. 50k+54`
and nothing is composited on any other slide; even rotation entries
cycle the promo pool, odd entries take sponsor `entry/2` pinning to the
first sponsor once the pool is exhausted, and an empty pool falls back
to the other pool. -/
theorem C6_corner_overlay_schedule :
    (∀ (ps ss : List String) (k j : ℕ), j < 4 →
        overlayEmitAt ps ss (50 * k + 51 + j) = corner_overlay_pick ps ss k) ∧
    (∀ (ps ss : List String) (s : ℕ), 1 ≤ s →
        (∀ k j : ℕ, j < 4 → s ≠ 50 * k + 51 + j) →
        overlayEmitAt ps ss s = none) ∧
    (∀ (ps ss : List String) (m : ℕ), ps ≠ [] →
        corner_overlay_pick ps ss (2 * m) = ps.get? (m % ps.length)) ∧
    (∀ (ps ss : List String) (m : ℕ), ss ≠ [] →
        corner_overlay_pick ps ss (2 * m + 1)
          = (if m < ss.length then ss.get? m else ss.get? 0)) ∧
    (∀ (ss : List String) (m : ℕ), ss ≠ [] →
        corner_overlay_pick [] ss (2 * m) = ss.get? (m % ss.length)) ∧
    (∀ (ps : List String) (m : ℕ), ps ≠ [] →
        corner_overlay_pick ps [] (2 * m + 1) = ps.get? (m % ps.length)) := by
  have hdiv : ∀ m : ℕ, 2 * m / 2 = m := by intro m; omega
  have hmod : ∀ m : ℕ, 2 * m % 2 = 0 := by intro m; omega
  have hdiv1 : ∀ m : ℕ, (2 * m + 1) / 2 = m := by intro m; omega
  have hmod1 : ∀ m : ℕ, (2 * m + 1) % 2 = 1 := by intro m; omega
  refine ⟨?_, ?_, ?_, ?_, ?_, ?_⟩
  · intro ps ss k j hj
    rw [overlayEmitAt_eq ps ss _ (by omega), expOverlayEmit,
      if_pos ⟨by omega, by omega⟩]
    congr 1
    omega
  · intro ps ss s hs hnot
    rw [overlayEmitAt_eq ps ss s hs, expOverlayEmit, if_neg ?_]
    rintro ⟨h51, h4⟩
    exact hnot ((s - 51) / 50) ((s - 51) % 50) h4 (by omega)
  · intro ps ss m hps
    simp [corner_overlay_pick, hps, hdiv, hmod]
  · intro ps ss m hss
    simp [corner_overlay_pick, hss, hdiv1, hmod1]
  · intro ss m hss
    simp [corner_overlay_pick, hss, hdiv, hmod]
  · intro ps m hps
    simp [corner_overlay_pick, hps, hdiv1, hmod1]

/-- Witness for C6: slide 101 carries rotation entry 1 and slide 1 no
overlay, for concrete pools. -/
theorem C6_corner_overlay_schedule_witness :
    overlayEmitAt ["p1", "p2"] ["s1"] (50 * 1 + 51 + 0)
        = corner_overlay_pick ["p1", "p2"] ["s1"] 1 ∧
    overlayEmitAt ["p1", "p2"] ["s1"] 1 = none :=
  ⟨C6_corner_overlay_schedule.1 ["p1", "p2"] ["s1"] 1 0 (by omega),
   C6_corner_overlay_schedule.2.1 ["p1", "p2"] ["s1"] 1 (by omega)
     (by intro k j hj; omega)⟩

/-- A feeder iteration whose resolved track equals the open decode
source neither terminates nor spawns a decoder. -/
lemma feederStep_same (idx : String → Option String) (cur : Option String)
    (era : Option String) (h : some (pickMusicPath idx era) = cur) :
    feederStep idx cur era = (cur, ⟨false, false⟩) := by
  simp [feederStep, h]

/-- Iterations that keep resolving to the already-open track are
no-ops. -/
lemma feederRun_const (idx : String → Option String) (e : Option String) :
    ∀ j, feederRun idx (some (pickMusicPath idx e)) (List.replicate j e)
      = (some (pickMusicPath idx e), List.replicate j ⟨false, false⟩) := by
  intro j
  induction j with
  | zero => simp [feederRun]
  | succ k ih =>
    rw [List.replicate_succ]
    simp [feederRun, feederStep_same idx _ e rfl, ih, List.replicate_succ]

/-- The feeder run splits over concatenated era observations. -/
lemma feederRun_append (idx : String → Option String) (xs ys : List (Option String)) :
    ∀ cur, feederRun idx cur (xs ++ ys)
      = ((feederRun idx (feederRun idx cur xs).1 ys).1,
         (feederRun idx cur xs).2 ++ (feederRun idx (feederRun idx cur xs).1 ys).2) := by
  induction xs with
  | nil => intro cur; simp [feederRun]
  | cons x xs ih => intro cur; simp [feederRun, ih]

/-- C7: the audio feeder replaces its decoder only when the resolved
track differs from the open decode source — an iteration resolving to
the open source terminates and spawns nothing — so a run of `m ≥ 1`
readings of one topic followed by `n ≥ 1` readings of another (the two
resolving to distinct tracks) terminates exactly one decoder, at the
first reading of the second topic. -/
theorem C7_single_decoder_switch :
    (∀ (idx : String → Option String) (cur : Option String) (era : Option String),
        some (pickMusicPath idx era) = cur →
        feederStep idx cur era = (cur, ⟨false, false⟩)) ∧
    (∀ (idx : String → Option String) (e1 e2 : String) (m n : ℕ), 1 ≤ m → 1 ≤ n →
        pickMusicPath idx (some e1) ≠ pickMusicPath idx (some e2) →
        (feederRun idx none (List.replicate m (some e1) ++ List.replicate n (some e2))).2
            = ⟨false, true⟩ :: (List.replicate (m - 1) ⟨false, false⟩
                ++ ⟨true, true⟩ :: List.replicate (n - 1) ⟨false, false⟩) ∧
        switchCount ((feederRun idx none (List.replicate m (some e1)
            ++ List.replicate n (some e2))).2) = 1) := by
  constructor
  · exact feederStep_same
  · intro idx e1 e2 m n hm hn hne
    obtain ⟨m', rfl⟩ : ∃ m', m = m' + 1 := ⟨m - 1, by omega⟩
    obtain ⟨n', rfl⟩ : ∃ n', n = n' + 1 := ⟨n - 1, by omega⟩
    have hstep1 : feederStep idx none (some e1)
        = (some (pickMusicPath idx (some e1)), ⟨false, true⟩) := by
      simp [feederStep]
    have hstep2 : feederStep idx (some (pickMusicPath idx (some e1))) (some e2)
        = (some (pickMusicPath idx (some e2)), ⟨true, true⟩) := by
      simp [feederStep, Ne.symm hne]
    have hev : (feederRun idx none (List.replicate (m' + 1) (some e1)
        ++ List.replicate (n' + 1) (some e2))).2
        = ⟨false, true⟩ :: (List.replicate m' ⟨false, false⟩
            ++ ⟨true, true⟩ :: List.replicate n' ⟨false, false⟩) := by
      rw [List.replicate_succ, List.cons_append]
      simp only [feederRun, hstep1]
      rw [feederRun_append, feederRun_const idx (some e1) m']
      rw [List.replicate_succ]
      simp only [feederRun, hstep2]
      rw [feederRun_const idx (some e2) n']
    refine ⟨by simpa using hev, ?_⟩
    have h1 : (m' + 1 : ℕ) - 1 = m' := by omega
    have h2 : (n' + 1 : ℕ) - 1 = n' := by omega
    rw [hev]
    simp [switchCount, List.filter_append, List.filter_replicate]

/-- Witness for C7: two "Stone Age" readings then one "Bronze Age"
reading, over an index resolving the two topics to distinct tracks,
produce spawn, no-op, switch. -/
theorem C7_single_decoder_switch_witness :
    (feederRun (fun k => if k = "stoneage" then some "/music/Stone Age.mp3" else
        if k = "bronzeage" then some "/music/Bronze Age.mp3" else none) none
      (List.replicate 2 (some "Stone Age") ++ List.replicate 1 (some "Bronze Age"))).2
      = ⟨false, true⟩ :: (List.replicate 1 ⟨false, false⟩
          ++ ⟨true, true⟩ :: List.replicate 0 ⟨false, false⟩) :=
  (C7_single_decoder_switch.2
    (fun k => if k = "stoneage" then some "/music/Stone Age.mp3" else
        if k = "bronzeage" then some "/music/Bronze Age.mp3" else none)
    "Stone Age" "Bronze Age" 2 1 (by omega) (by omega) (by decide)).1

/-- C1 counterexample: with persisted cursor 5 (and 10 rows), the run
restarts at row 5 — the last committed row is replayed — not at row 6 as
the claim states. -/
theorem C1_counterexample :
    (processedRows (readStartIdx (some (some (5 : ℤ)))).toNat 10).head? = some 5 ∧
    (processedRows (readStartIdx (some (some (5 : ℤ)))).toNat 10).head? ≠ some 6 := by
  constructor <;> decide

/-- C1 (amended): after committing rows `0..k` the persisted cursor is
`k`; a restart that reads persisted cursor `k` resumes playback at row
`k` (replaying the last committed row); an absent or unparseable cursor
file starts playback at row 0. -/
theorem C1_amended_resume :
    readStartIdx none = 0 ∧ readStartIdx (some none) = 0 ∧
    (∀ k : ℕ, lastPersisted 0 (k + 1) = some k) ∧
    (∀ k total : ℕ, k < total →
      (processedRows (readStartIdx (some (some (k : ℤ)))).toNat total).head? = some k) := by
  refine ⟨rfl, rfl, ?_, ?_⟩
  · intro k
    have h : processedRows 0 (k + 1) = List.range (k + 1) := by
      simp [processedRows, List.range_eq_range']
    rw [lastPersisted, h, List.range_succ, List.getLast?_concat]
  · intro k total hk
    have hread : (readStartIdx (some (some (k : ℤ)))).toNat = k := by
      simp [readStartIdx]
    obtain ⟨j, hj⟩ : ∃ j, total - k = j + 1 := ⟨total - k - 1, by omega⟩
    rw [hread, processedRows, hj, List.range'_succ]
    rfl

/-- Witness for the amended C1 at cursor 2 with 4 rows. -/
theorem C1_amended_resume_witness :
    lastPersisted 0 3 = some 2 ∧
    (processedRows (readStartIdx (some (some (2 : ℤ)))).toNat 4).head? = some 2 :=
  ⟨C1_amended_resume.2.2.1 2, C1_amended_resume.2.2.2 2 4 (by decide)⟩

end EarthLore
